import Mathlib

/-!
Verification development for the serial-to-CSV signal-processing pipeline
(`src/bioConnect_WIN-Serial-2-CSV/src/WIN-Serial-2-CSV.c`).

The per-byte line reassembly, the `sscanf("%d,%d", ...)` record parsing and
the DSP chain (low-pass filter, threshold/refractory peak detector,
heart-rate estimation with plausibility gating) of `main` are embedded as
executable Lean definitions.  C `float` arithmetic is modelled over `ℚ`
(every numeric comparison the claims depend on is exact at the reference
constants, so the rational model decides each branch the same way the
float code does); C `int` is modelled as `ℤ` (all values involved are far
from 32-bit overflow).
-/

namespace BioConnect

/-- `#define BUFFER_SIZE 1024` (line 14). -/
def BUFFER_SIZE : ℕ := 1024

/-- `const float FS = 100.0f` (line 86): effective sample rate in Hz. -/
def FS : ℚ := 100

/-- `const float alpha_filt = 0.2f` (line 94). -/
def alpha_filt : ℚ := 1/5

/-- `const float peak_thr = 10.0f` (line 103). -/
def peak_thr : ℚ := 10

/-- `const float min_hr_bpm = 40.0f` (line 104). -/
def min_hr_bpm : ℚ := 40

/-- `const float max_hr_bpm = 200.0f` (line 105). -/
def max_hr_bpm : ℚ := 200

/-- `const float refractory_s = 0.3f` (line 106). -/
def refractory_s : ℚ := 3/10

/-- `const int refractory_n = (int)(refractory_s * FS)` (line 107): the
cast truncates the positive product toward zero, i.e. takes its floor.
The float computation `(int)(0.3f * 100.0f)` also yields 30. -/
def refractory_n : ℤ := Rat.floor (refractory_s * FS)

/-- `const float alpha_hr = 0.3f` (line 161). -/
def alpha_hr : ℚ := 3/10

/-! ## Line reassembler (lines 127, 183-191)

The pending buffer is the list of bytes accumulated so far
(`buffer[0..buffer_index-1]`); a byte is a natural number (its ASCII code,
`\n` = 10).  One byte of `chunk` is processed at a time: on a newline the
pending bytes form a completed record and the buffer resets; otherwise the
byte is appended while `buffer_index < BUFFER_SIZE - 1`, and on overflow a
diagnostic is printed and the buffer resets, dropping the current byte. -/

/-- One iteration of the per-byte loop (lines 129-191), restricted to the
buffer management: returns the new pending buffer, the completed record if
the byte was a newline, and whether the overflow diagnostic fired. -/
def feedByte (st : List ℕ) (b : ℕ) : List ℕ × Option (List ℕ) × Bool :=
  if b = 10 then
    ([], some st, false)
  else if st.length < BUFFER_SIZE - 1 then
    (st ++ [b], none, false)
  else
    ([], none, true)

/-- Feed a chunk of bytes through the reassembler, collecting the completed
records in order and counting overflow diagnostics. -/
def feedBytes : List ℕ → List ℕ → List ℕ × List (List ℕ) × ℕ
  | st, [] => (st, [], 0)
  | st, b :: bs =>
    let t := feedByte st b
    let u := feedBytes t.1 bs
    (u.1, t.2.1.toList ++ u.2.1, (if t.2.2 then 1 else 0) + u.2.2)

/-- Feed a sequence of chunks (successive `ReadFile` deliveries, possibly
empty) through the reassembler; buffer state persists across chunks. -/
def feedChunks : List ℕ → List (List ℕ) → List ℕ × List (List ℕ) × ℕ
  | st, [] => (st, [], 0)
  | st, c :: cs =>
    let t := feedBytes st c
    let u := feedChunks t.1 cs
    (u.1, t.2.1 ++ u.2.1, t.2.2 + u.2.2)

/-! ## Record parsing: `sscanf(buffer, "%d,%d", &red_int, &ir_int)` (line 133) -/

/-- C `isspace` on the bytes `scanf` skips before a `%d` conversion. -/
def isWsByte (b : ℕ) : Bool := b = 32 ∨ b = 9 ∨ b = 10 ∨ b = 11 ∨ b = 12 ∨ b = 13

/-- ASCII decimal digit. -/
def isDigitByte (b : ℕ) : Bool := 48 ≤ b ∧ b ≤ 57

/-- Value of a block of ASCII digits. -/
def digitsVal (ds : List ℕ) : ℤ := ds.foldl (fun a d => a * 10 + ((d : ℤ) - 48)) 0

/-- One `%d` conversion: skip whitespace, optional sign (45 = minus,
43 = plus), then a maximal nonempty digit run; `none` on matching failure. -/
def scanInt (l : List ℕ) : Option (ℤ × List ℕ) :=
  let l1 := l.dropWhile (fun b => isWsByte b)
  let sl : ℤ × List ℕ :=
    match l1 with
    | 45 :: rest => (-1, rest)
    | 43 :: rest => (1, rest)
    | _ => (1, l1)
  let ds := sl.2.takeWhile (fun b => isDigitByte b)
  if ds = [] then none
  else some (sl.1 * digitsVal ds, sl.2.dropWhile (fun b => isDigitByte b))

/-- `sscanf(buffer, "%d,%d", &red_int, &ir_int)` with `red_int`/`ir_int`
pre-initialised to 0 (lines 131-133): returns the number of successful
conversions and both values, unassigned values staying 0.  The literal `,`
must match the next input byte exactly (44). -/
def sscanf2 (l : List ℕ) : ℕ × ℤ × ℤ :=
  match scanInt l with
  | none => (0, 0, 0)
  | some (r, rest) =>
    match rest with
    | b :: rest2 =>
      if b = 44 then
        match scanInt rest2 with
        | none => (1, r, 0)
        | some (i, _) => (2, r, i)
      else (1, r, 0)
    | [] => (1, r, 0)

/-- The buffer is read as a C string: `buffer[buffer_index] = '\0'` (line 126)
means `sscanf` sees the pending bytes up to the first embedded NUL. -/
def cstr (l : List ℕ) : List ℕ := l.takeWhile (fun b => b ≠ 0)

/-! ## DSP state and per-sample processing (lines 86-181) -/

/-- The mutable DSP variables of `main` (lines 89-108). -/
structure DSPState where
  red_raw : ℚ
  ir_raw : ℚ
  ir_filt : ℚ
  hr_bpm : ℚ
  hr_bpm_filt : ℚ
  sample_idx : ℤ
  last_peak : ℤ
  prev_peak : ℤ
  prev_ir_filt : ℚ
deriving DecidableEq, Repr

/-- Initial values (lines 89-108): everything 0, peak indices at the
sentinel -1000. -/
def initDSP : DSPState :=
  { red_raw := 0, ir_raw := 0, ir_filt := 0, hr_bpm := 0, hr_bpm_filt := 0
    sample_idx := 0, last_peak := -1000, prev_peak := -1000, prev_ir_filt := 0 }

/-- Low-pass filter step `ir_filt = ir_filt + alpha_filt * (ir_raw - ir_filt)`
(line 144). -/
def filterStep (prev x : ℚ) : ℚ := prev + alpha_filt * (x - prev)

/-- `float period_sec = delta_n / FS` (line 156). -/
def periodSec (delta : ℤ) : ℚ := (delta : ℚ) / FS

/-- `float inst_hr = 60.0f / period_sec` (line 157). -/
def instHr (delta : ℤ) : ℚ := 60 / periodSec delta

/-- Peak detection and heart-rate estimation (lines 148-168), acting on a
state whose `ir_filt` has already been updated for the current sample and
whose `sample_idx` is the current sample's index.  The Boolean records
whether a peak was accepted (the branch assigning `last_peak`).  After the
shift `prev_peak := last_peak; last_peak := sample_idx`, the C tests
`prev_peak >= 0` and uses `delta_n = last_peak - prev_peak`, which equal
`s.last_peak ≥ 0` and `s.sample_idx - s.last_peak` in terms of the incoming
state. -/
def peakHrStep (s : DSPState) : DSPState × Bool :=
  if s.prev_ir_filt < peak_thr ∧ peak_thr ≤ s.ir_filt then
    if refractory_n < s.sample_idx - s.last_peak then
      if 0 ≤ s.last_peak then
        if min_hr_bpm < instHr (s.sample_idx - s.last_peak) ∧
            instHr (s.sample_idx - s.last_peak) < max_hr_bpm then
          ({ s with prev_peak := s.last_peak, last_peak := s.sample_idx,
                    hr_bpm := instHr (s.sample_idx - s.last_peak),
                    hr_bpm_filt := s.hr_bpm_filt +
                      alpha_hr * (instHr (s.sample_idx - s.last_peak) - s.hr_bpm_filt) },
           true)
        else
          ({ s with prev_peak := s.last_peak, last_peak := s.sample_idx }, true)
      else
        ({ s with prev_peak := s.last_peak, last_peak := s.sample_idx }, true)
    else (s, false)
  else (s, false)

/-- The state right after storing the raw values (lines 135-136) and the
filter update (line 144), before peak detection looks at it. -/
def filteredState (s : DSPState) (red ir : ℚ) : DSPState :=
  { s with red_raw := red, ir_raw := ir, ir_filt := filterStep s.ir_filt ir }

/-- Processing of one parsed sample (lines 135-180): store the raw values,
filter the IR channel, run peak detection / HR estimation, update
`prev_ir_filt`, emit `proc_val = ir_filt` to the CSV sink, and advance
`sample_idx`.  Returns the new state, the emitted value and the
peak-accepted flag. -/
def processSample (s : DSPState) (red ir : ℚ) : DSPState × ℚ × Bool :=
  let sA := filteredState s red ir
  let t := peakHrStep sA
  ({ t.1 with prev_ir_filt := sA.ir_filt, sample_idx := s.sample_idx + 1 }, sA.ir_filt, t.2)

/-- Processing of one completed record (lines 126-180): NUL-truncate the
buffer, run `sscanf`, and — the return value being ignored — process the
(possibly defaulted) pair unconditionally.  Returns the new DSP state and
the value written to the CSV sink. -/
def processRecord (s : DSPState) (rec : List ℕ) : DSPState × ℚ :=
  let t := sscanf2 (cstr rec)
  let u := processSample s (t.2.1 : ℚ) (t.2.2 : ℚ)
  (u.1, u.2.1)

/-- Run the DSP chain over a list of `(red, ir)` samples, collecting the
sample indices at which a peak was accepted. -/
def runDSP : DSPState → List (ℚ × ℚ) → DSPState × List ℤ
  | s, [] => (s, [])
  | s, p :: rest =>
    let t := processSample s p.1 p.2
    let u := runDSP t.1 rest
    (u.1, (if t.2.2 then [s.sample_idx] else []) ++ u.2)

/-- Iterated filter with a constant raw input `x` (the recurrence of
line 144 applied `n` times starting from `f0`). -/
def filtIter (f0 x : ℚ) : ℕ → ℚ
  | 0 => f0
  | n + 1 => filterStep (filtIter f0 x n) x

/-! ## Pipeline driver (lines 119-207) -/

/-- The driver's mutable state: reassembly buffer, DSP variables and the
count of overflow diagnostics printed so far. -/
structure PipeState where
  re : List ℕ
  dsp : DSPState
  overflows : ℕ
deriving DecidableEq, Repr

/-- Driver state at program start. -/
def initPipe : PipeState := { re := [], dsp := initDSP, overflows := 0 }

/-- One byte of the inner loop (lines 129-191): feed the reassembler; a
completed record is parsed and processed immediately, producing one sink
write. -/
def driveByte (p : PipeState) (b : ℕ) : PipeState × List ℚ :=
  match feedByte p.re b with
  | (re', some r, _) =>
    let t := processRecord p.dsp r
    ({ re := re', dsp := t.1, overflows := p.overflows }, [t.2])
  | (re', none, ov) =>
    ({ re := re', dsp := p.dsp, overflows := p.overflows + (if ov then 1 else 0) }, [])

/-- Process one delivered chunk byte by byte (lines 129-192), collecting
the sink writes. -/
def driveChunk : PipeState → List ℕ → PipeState × List ℚ
  | p, [] => (p, [])
  | p, b :: bs =>
    let t := driveByte p b
    let u := driveChunk t.1 bs
    (u.1, t.2 ++ u.2)

/-- One `ReadFile` poll result: a chunk of 0..CHUNK_SIZE bytes, or the
error signal `(int)n_bytes < 0` (lines 121, 194). -/
inductive Poll where
  | chunk (bytes : List ℕ)
  | srcErr
deriving DecidableEq

/-- The `while (1)` loop (lines 119-199) over a finite prefix of poll
results: a source error hits `break` and abandons the remaining polls.
Returns the final state, all sink writes, and whether the loop exited via
the error `break`. -/
def runPolls : PipeState → List Poll → PipeState × List ℚ × Bool
  | p, [] => (p, [], false)
  | p, Poll.srcErr :: _ => (p, [], true)
  | p, Poll.chunk bs :: rest =>
    let t := driveChunk p bs
    let u := runPolls t.1 rest
    (u.1, t.2 ++ u.2.1, u.2.2)

/-- The shutdown sequence after the loop (line 203):
`if (CloseHandle(serial_port) == 0 && fclose(csvFile) == 0)`.
`CloseHandle` is always evaluated; because `&&` short-circuits, `fclose`
is evaluated only when `CloseHandle` returned 0 (i.e. failed).  Given
`CloseHandle`'s return value, the pair records which of the two release
calls actually ran (serial handle, CSV file). -/
def shutdownCalls (closeHandleRet : ℤ) : Bool × Bool :=
  (true, closeHandleRet = 0)

/-- `return 0;` (line 206): the exit status of `main` after the loop ends,
including when it ended through the byte-source error `break`. -/
def exitCodeAfterSourceError : ℤ := 0

/-! ## Reassembler lemmas -/

/-- Feeding a concatenation of two byte lists composes statewise: records
and diagnostic counts concatenate/add. -/
lemma feedBytes_append (xs ys : List ℕ) : ∀ st : List ℕ,
    feedBytes st (xs ++ ys) =
      ((feedBytes (feedBytes st xs).1 ys).1,
       (feedBytes st xs).2.1 ++ (feedBytes (feedBytes st xs).1 ys).2.1,
       (feedBytes st xs).2.2 + (feedBytes (feedBytes st xs).1 ys).2.2) := by
  induction xs with
  | nil => intro st; simp [feedBytes]
  | cons b bs ih =>
    intro st
    simp [feedBytes, ih, List.append_assoc, Nat.add_assoc]

/-- Feeding chunk by chunk equals feeding the joined byte stream. -/
lemma feedChunks_eq_join : ∀ (cs : List (List ℕ)) (st : List ℕ),
    feedChunks st cs = feedBytes st cs.flatten := by
  intro cs
  induction cs with
  | nil => intro st; simp [feedChunks, feedBytes]
  | cons c cs ih =>
    intro st
    simp [feedChunks, List.flatten, feedBytes_append, ih]

/-- C4: for every finite byte sequence and every way of splitting it into
chunks delivered across successive polls (zero-byte chunks included), the
reassembler produces the same final buffer, the same sequence of completed
records and the same diagnostics as when the bytes arrive in one single
chunk. -/
theorem c4_chunk_invariance (chunks : List (List ℕ)) :
    feedChunks [] chunks = feedBytes [] chunks.flatten :=
  feedChunks_eq_join chunks []

/-- Feeding non-newline bytes that fit in the buffer just accumulates them:
no record, no diagnostic. -/
lemma feedBytes_accumulate : ∀ (bs st : List ℕ), (∀ b ∈ bs, b ≠ 10) →
    st.length + bs.length ≤ BUFFER_SIZE - 1 →
    feedBytes st bs = (st ++ bs, [], 0) := by
  intro bs
  induction bs with
  | nil => intro st _ _; simp [feedBytes]
  | cons b bs ih =>
    intro st hnl hlen
    have hb : b ≠ 10 := hnl b (List.mem_cons_self b bs)
    have hlt : st.length < BUFFER_SIZE - 1 := by
      simp only [List.length_cons] at hlen; omega
    have hstep : feedByte st b = (st ++ [b], none, false) := by
      simp [feedByte, hb, hlt]
    have hrest : feedBytes (st ++ [b]) bs = ((st ++ [b]) ++ bs, [], 0) := by
      refine ih (st ++ [b]) (fun x hx => hnl x (List.mem_cons_of_mem b hx)) ?_
      have h1 : (st ++ [b]).length = st.length + 1 := by simp
      simp only [List.length_cons] at hlen
      rw [h1]
      omega
    simp [feedBytes, hstep, hrest]

/-- C5: a record longer than the buffer capacity arriving without a line
terminator (here: 1024 non-newline bytes, one more than the 1023 the
buffer can hold) triggers exactly one overflow diagnostic, discards all
pending bytes and yields no record for the discarded fragment; accumulation
resumes with the next byte, and a subsequent well-formed record
`"12,34\n"` (bytes `[49,50,44,51,52,10]`) is still reassembled as the sole
completed record and parses into the two integers 12 and 34. -/
theorem c5_overflow_resync (junk : List ℕ)
    (hlen : junk.length = BUFFER_SIZE)
    (hnl : ∀ b ∈ junk, b ≠ 10) :
    feedBytes [] junk = ([], [], 1) ∧
    feedBytes [] (junk ++ [49, 50, 44, 51, 52, 10]) = ([], [[49, 50, 44, 51, 52]], 1) ∧
    sscanf2 [49, 50, 44, 51, 52] = (2, 12, 34) := by
  have hsplit : junk = junk.take 1023 ++ junk.drop 1023 := (List.take_append_drop _ _).symm
  have htklen : (junk.take 1023).length = 1023 := by
    simp [List.length_take, hlen, BUFFER_SIZE]
  have hdlen : (junk.drop 1023).length = 1 := by
    simp [List.length_drop, hlen, BUFFER_SIZE]
  obtain ⟨y, hy⟩ := List.length_eq_one.mp hdlen
  have hyj : y ∈ junk := by
    have : y ∈ junk.drop 1023 := by simp [hy]
    exact List.drop_subset _ _ this
  have hacc : feedBytes [] (junk.take 1023) = (junk.take 1023, [], 0) := by
    have := feedBytes_accumulate (junk.take 1023) []
      (fun b hb => hnl b (List.take_subset _ _ hb)) (by simp [htklen, BUFFER_SIZE])
    simpa using this
  have hov : feedBytes (junk.take 1023) [y] = ([], [], 1) := by
    have hstep : feedByte (junk.take 1023) y = ([], none, true) := by
      simp [feedByte, hnl y hyj, htklen, BUFFER_SIZE]
    simp [feedBytes, hstep]
  have hjunk : feedBytes [] junk = ([], [], 1) := by
    rw [hsplit, hy, feedBytes_append, hacc]
    simpa using hov
  refine ⟨hjunk, ?_, by decide⟩
  rw [feedBytes_append, hjunk]
  have hgood : feedBytes [] [49, 50, 44, 51, 52, 10] =
      ([], [[49, 50, 44, 51, 52]], 0) := by decide
  simp [hgood]

/-! ## Peak-detector / HR-estimator characterization lemmas -/

/-- If the refractory gate fails, the peak/HR stage is a no-op. -/
lemma peakHrStep_not_refr (s : DSPState)
    (h : ¬ refractory_n < s.sample_idx - s.last_peak) : peakHrStep s = (s, false) := by
  unfold peakHrStep
  split_ifs <;> rfl

/-- A fired peak implies the crossing and refractory conditions hold, and the
peak indices shift to `(sample_idx, old last_peak)`. -/
lemma peakHrStep_fired (s : DSPState) (h : (peakHrStep s).2 = true) :
    (s.prev_ir_filt < peak_thr ∧ peak_thr ≤ s.ir_filt) ∧
    refractory_n < s.sample_idx - s.last_peak ∧
    (peakHrStep s).1.last_peak = s.sample_idx ∧
    (peakHrStep s).1.prev_peak = s.last_peak := by
  unfold peakHrStep at *
  split_ifs at h ⊢ with h1 h2 h3 h4 <;> simp_all

/-- If no peak fired, the peak/HR stage left the state untouched. -/
lemma peakHrStep_not_fired (s : DSPState) (h : (peakHrStep s).2 = false) :
    (peakHrStep s).1 = s := by
  unfold peakHrStep at *
  split_ifs at h ⊢ <;> simp_all

/-- The peak/HR stage never touches `ir_filt`. -/
lemma peakHrStep_ir_filt (s : DSPState) : (peakHrStep s).1.ir_filt = s.ir_filt := by
  unfold peakHrStep
  split_ifs <;> rfl

/-- The peak/HR stage never touches `sample_idx`. -/
lemma peakHrStep_sample_idx (s : DSPState) : (peakHrStep s).1.sample_idx = s.sample_idx := by
  unfold peakHrStep
  split_ifs <;> rfl

/-- Any change to either HR field means a peak was accepted with
`prev_peak` non-sentinel and an instantaneous BPM strictly inside
`(min_hr_bpm, max_hr_bpm)`, and both fields took the accepted values. -/
lemma peakHrStep_hr_changed (s : DSPState)
    (h : (peakHrStep s).1.hr_bpm ≠ s.hr_bpm ∨ (peakHrStep s).1.hr_bpm_filt ≠ s.hr_bpm_filt) :
    (s.prev_ir_filt < peak_thr ∧ peak_thr ≤ s.ir_filt) ∧
    refractory_n < s.sample_idx - s.last_peak ∧
    0 ≤ s.last_peak ∧
    (min_hr_bpm < instHr (s.sample_idx - s.last_peak) ∧
      instHr (s.sample_idx - s.last_peak) < max_hr_bpm) ∧
    (peakHrStep s).1.hr_bpm = instHr (s.sample_idx - s.last_peak) ∧
    (peakHrStep s).1.hr_bpm_filt =
      s.hr_bpm_filt + alpha_hr * (instHr (s.sample_idx - s.last_peak) - s.hr_bpm_filt) := by
  unfold peakHrStep at *
  split_ifs at h ⊢ with h1 h2 h3 h4 <;> simp_all

/-- If the instantaneous BPM for the candidate interval is not strictly
inside the plausibility range, both HR fields are left exactly as they
were. -/
lemma peakHrStep_hr_unchanged (s : DSPState)
    (h : ¬ (min_hr_bpm < instHr (s.sample_idx - s.last_peak) ∧
            instHr (s.sample_idx - s.last_peak) < max_hr_bpm)) :
    (peakHrStep s).1.hr_bpm = s.hr_bpm ∧ (peakHrStep s).1.hr_bpm_filt = s.hr_bpm_filt := by
  unfold peakHrStep
  split_ifs <;> simp_all

/-! ## `processSample` projections -/

lemma processSample_state (s : DSPState) (red ir : ℚ) :
    (processSample s red ir).1 =
      { (peakHrStep (filteredState s red ir)).1 with
          prev_ir_filt := filterStep s.ir_filt ir, sample_idx := s.sample_idx + 1 } := rfl

lemma processSample_sample_idx (s : DSPState) (red ir : ℚ) :
    (processSample s red ir).1.sample_idx = s.sample_idx + 1 := rfl

lemma processSample_out (s : DSPState) (red ir : ℚ) :
    (processSample s red ir).2.1 = filterStep s.ir_filt ir := rfl

lemma processSample_fired_flag (s : DSPState) (red ir : ℚ) :
    (processSample s red ir).2.2 = (peakHrStep (filteredState s red ir)).2 := rfl

lemma processSample_ir_filt (s : DSPState) (red ir : ℚ) :
    (processSample s red ir).1.ir_filt = filterStep s.ir_filt ir := by
  rw [processSample_state]
  show (peakHrStep (filteredState s red ir)).1.ir_filt = filterStep s.ir_filt ir
  rw [peakHrStep_ir_filt]
  rfl

lemma processSample_prev_ir_filt (s : DSPState) (red ir : ℚ) :
    (processSample s red ir).1.prev_ir_filt = filterStep s.ir_filt ir := rfl

/-- If no peak fired during a sample, both peak indices are carried over. -/
lemma processSample_peaks_unchanged (s : DSPState) (red ir : ℚ)
    (h : (processSample s red ir).2.2 = false) :
    (processSample s red ir).1.last_peak = s.last_peak ∧
    (processSample s red ir).1.prev_peak = s.prev_peak := by
  have h' : (peakHrStep (filteredState s red ir)).2 = false := h
  have he := peakHrStep_not_fired _ h'
  constructor
  · show (peakHrStep (filteredState s red ir)).1.last_peak = s.last_peak
    rw [he]; rfl
  · show (peakHrStep (filteredState s red ir)).1.prev_peak = s.prev_peak
    rw [he]; rfl

/-- If a peak fired, the refractory gate had passed and the indices shifted. -/
lemma processSample_fired_facts (s : DSPState) (red ir : ℚ)
    (h : (processSample s red ir).2.2 = true) :
    refractory_n < s.sample_idx - s.last_peak ∧
    (processSample s red ir).1.last_peak = s.sample_idx ∧
    (processSample s red ir).1.prev_peak = s.last_peak := by
  have h' : (peakHrStep (filteredState s red ir)).2 = true := h
  obtain ⟨-, hrefr, hlast, hprev⟩ := peakHrStep_fired _ h'
  exact ⟨hrefr, hlast, hprev⟩

/-- The refractory window is 30 samples at the reference constants. -/
lemma refractory_n_eq : refractory_n = 30 := by
  have h : refractory_s * FS = 30 := by norm_num [refractory_s, FS]
  show Rat.floor (refractory_s * FS) = 30
  rw [h, Rat.floor_def']
  simp

/-- Unfolding equation for `runDSP` on a cons cell. -/
lemma runDSP_cons (s : DSPState) (q : ℚ × ℚ) (rest : List (ℚ × ℚ)) :
    runDSP s (q :: rest) =
      ((runDSP (processSample s q.1 q.2).1 rest).1,
       (if (processSample s q.1 q.2).2.2 then [s.sample_idx] else []) ++
         (runDSP (processSample s q.1 q.2).1 rest).2) := rfl

/-- Invariant of the running peak detector: starting from any state with
`last_peak < sample_idx`, every accepted peak index is at least the current
sample index and beats the refractory distance from the incoming
`last_peak`, and the accepted peak indices are pairwise separated by more
than `refractory_n`. -/
lemma runDSP_peaks_inv : ∀ (l : List (ℚ × ℚ)) (s : DSPState),
    s.last_peak < s.sample_idx →
    (∀ p ∈ (runDSP s l).2, s.sample_idx ≤ p ∧ s.last_peak + refractory_n < p) ∧
    List.Pairwise (fun a b => refractory_n < b - a) (runDSP s l).2 := by
  intro l
  induction l with
  | nil =>
    intro s _
    constructor
    · intro p hp; simp [runDSP] at hp
    · simp [runDSP]
  | cons q rest ih =>
    intro s hinv
    have hidx := processSample_sample_idx s q.1 q.2
    cases hf : (processSample s q.1 q.2).2.2 with
    | false =>
      obtain ⟨hlast, hprev⟩ := processSample_peaks_unchanged s q.1 q.2 hf
      have hinv' : (processSample s q.1 q.2).1.last_peak <
          (processSample s q.1 q.2).1.sample_idx := by
        rw [hlast, hidx]; omega
      obtain ⟨hmem, hpw⟩ := ih _ hinv'
      constructor
      · intro p hp
        rw [runDSP_cons] at hp
        simp only [hf, Bool.false_eq_true, if_false, List.nil_append] at hp
        obtain ⟨h1, h2⟩ := hmem p hp
        rw [hidx] at h1
        rw [hlast] at h2
        exact ⟨by omega, h2⟩
      · rw [runDSP_cons]
        simp only [hf, Bool.false_eq_true, if_false, List.nil_append]
        exact hpw
    | true =>
      obtain ⟨hrefr, hlast, hprev⟩ := processSample_fired_facts s q.1 q.2 hf
      have hinv' : (processSample s q.1 q.2).1.last_peak <
          (processSample s q.1 q.2).1.sample_idx := by
        rw [hlast, hidx]; omega
      obtain ⟨hmem, hpw⟩ := ih _ hinv'
      constructor
      · intro p hp
        rw [runDSP_cons] at hp
        simp only [hf, if_true, List.singleton_append, List.mem_cons] at hp
        rcases hp with rfl | hp
        · exact ⟨le_refl _, by omega⟩
        · obtain ⟨h1, h2⟩ := hmem p hp
          rw [hidx] at h1
          rw [hlast] at h2
          exact ⟨by omega, by omega⟩
      · rw [runDSP_cons]
        simp only [hf, if_true, List.singleton_append]
        refine List.Pairwise.cons ?_ hpw
        intro b hb
        obtain ⟨h1, h2⟩ := hmem b hb
        rw [hlast] at h2
        omega

/-- C2: `refractory_n` is 30 at the reference 0.3 s × 100 Hz; for every
input trace, any two peaks accepted by the running detector have sample
indices more than `refractory_n` apart; and whenever the refractory gate
fails (`sample_idx - last_peak ≤ refractory_n`, which covers any threshold
crossing inside the refractory window), neither `last_peak` nor
`prev_peak` changes. -/
theorem c2_refractory_invariant (inputs : List (ℚ × ℚ)) :
    refractory_n = 30 ∧
    List.Pairwise (fun a b => refractory_n < b - a) (runDSP initDSP inputs).2 ∧
    (∀ (s : DSPState) (red ir : ℚ), ¬ refractory_n < s.sample_idx - s.last_peak →
      (processSample s red ir).1.last_peak = s.last_peak ∧
      (processSample s red ir).1.prev_peak = s.prev_peak) := by
  refine ⟨refractory_n_eq, (runDSP_peaks_inv inputs initDSP (by decide)).2, ?_⟩
  intro s red ir h
  have h' : ¬ refractory_n <
      (filteredState s red ir).sample_idx - (filteredState s red ir).last_peak := h
  have hf : (processSample s red ir).2.2 = false := by
    rw [processSample_fired_flag, peakHrStep_not_refr _ h']
  exact processSample_peaks_unchanged s red ir hf

/-- Witness for C2 (Scenario E): with `last_peak = 10` at `sample_idx = 15`
the gap 5 is inside the 30-sample refractory window, and a crossing
(`prev_ir_filt = 0 < 10 ≤ filterStep 0 100 = 20`) changes neither peak
index. -/
theorem c2_witness :
    ¬ refractory_n < (15 : ℤ) - 10 ∧
    (processSample ⟨0, 0, 0, 0, 0, 15, 10, -1000, 0⟩ 0 100).1.last_peak = 10 ∧
    (processSample ⟨0, 0, 0, 0, 0, 15, 10, -1000, 0⟩ 0 100).1.prev_peak = -1000 := by
  have h : ¬ refractory_n < (15 : ℤ) - 10 := by rw [refractory_n_eq]; decide
  exact ⟨h, ((c2_refractory_invariant []).2.2 ⟨0, 0, 0, 0, 0, 15, 10, -1000, 0⟩ 0 100 h).1,
            ((c2_refractory_invariant []).2.2 ⟨0, 0, 0, 0, 0, 15, 10, -1000, 0⟩ 0 100 h).2⟩

/-- Witness for C5: 1024 copies of the byte 97 followed by the record
`"12,34\n"`. -/
theorem c5_witness :
    (List.replicate BUFFER_SIZE 97).length = BUFFER_SIZE ∧
    feedBytes [] (List.replicate BUFFER_SIZE 97 ++ [49, 50, 44, 51, 52, 10]) =
      ([], [[49, 50, 44, 51, 52]], 1) := by
  have h1 : (List.replicate BUFFER_SIZE 97).length = BUFFER_SIZE := by simp
  have h2 : ∀ b ∈ List.replicate BUFFER_SIZE 97, b ≠ 10 := by
    intro b hb
    have := List.eq_of_mem_replicate hb
    omega
  exact ⟨h1, (c5_overflow_resync _ h1 h2).2.1⟩

/-- Upward threshold crossing at the current sample: the previous filtered
value was below `peak_thr` and the newly filtered one reaches it
(line 148). -/
def crossingAt (s : DSPState) (ir : ℚ) : Prop :=
  s.prev_ir_filt < peak_thr ∧ peak_thr ≤ filterStep s.ir_filt ir

/-- C3: the HR fields change only when a newly accepted peak (crossing,
refractory gate passed, `prev_peak` non-sentinel) yields an instantaneous
BPM strictly inside `(min_hr_bpm, max_hr_bpm)` — boundary values rejected —
and then they take exactly the accepted/smoothed values; whenever the
instantaneous BPM for the candidate interval is outside the open range,
neither `hr_bpm` nor `hr_bpm_filt` is mutated. -/
theorem c3_plausibility_gate (s : DSPState) (red ir : ℚ) :
    (((processSample s red ir).1.hr_bpm ≠ s.hr_bpm ∨
      (processSample s red ir).1.hr_bpm_filt ≠ s.hr_bpm_filt) →
      crossingAt s ir ∧ refractory_n < s.sample_idx - s.last_peak ∧ 0 ≤ s.last_peak ∧
      (min_hr_bpm < instHr (s.sample_idx - s.last_peak) ∧
        instHr (s.sample_idx - s.last_peak) < max_hr_bpm) ∧
      (processSample s red ir).1.hr_bpm = instHr (s.sample_idx - s.last_peak) ∧
      (processSample s red ir).1.hr_bpm_filt =
        s.hr_bpm_filt + alpha_hr * (instHr (s.sample_idx - s.last_peak) - s.hr_bpm_filt)) ∧
    (¬ (min_hr_bpm < instHr (s.sample_idx - s.last_peak) ∧
        instHr (s.sample_idx - s.last_peak) < max_hr_bpm) →
      (processSample s red ir).1.hr_bpm = s.hr_bpm ∧
      (processSample s red ir).1.hr_bpm_filt = s.hr_bpm_filt) := by
  constructor
  · intro h
    have h' : (peakHrStep (filteredState s red ir)).1.hr_bpm ≠
          (filteredState s red ir).hr_bpm ∨
        (peakHrStep (filteredState s red ir)).1.hr_bpm_filt ≠
          (filteredState s red ir).hr_bpm_filt := h
    exact peakHrStep_hr_changed _ h'
  · intro h
    have h' : ¬ (min_hr_bpm < instHr ((filteredState s red ir).sample_idx -
          (filteredState s red ir).last_peak) ∧
        instHr ((filteredState s red ir).sample_idx -
          (filteredState s red ir).last_peak) < max_hr_bpm) := h
    exact peakHrStep_hr_unchanged _ h'

/-- Witness for C3: `delta = 160` gives `instHr = 37.5 ≤ 40`, so a peak at
sample 200 after a peak at 40 is rejected and both HR fields keep their
values 77 and 90. -/
theorem c3_witness :
    (¬ (min_hr_bpm < instHr ((200 : ℤ) - 40) ∧ instHr ((200 : ℤ) - 40) < max_hr_bpm)) ∧
    (processSample ⟨0, 0, 20, 77, 90, 200, 40, 5, 0⟩ 0 100).1.hr_bpm = 77 ∧
    (processSample ⟨0, 0, 20, 77, 90, 200, 40, 5, 0⟩ 0 100).1.hr_bpm_filt = 90 := by
  have h : ¬ (min_hr_bpm < instHr ((200 : ℤ) - 40) ∧ instHr ((200 : ℤ) - 40) < max_hr_bpm) := by
    norm_num [instHr, periodSec, min_hr_bpm, max_hr_bpm, FS]
  exact ⟨h, ((c3_plausibility_gate ⟨0, 0, 20, 77, 90, 200, 40, 5, 0⟩ 0 100).2 h).1,
            ((c3_plausibility_gate ⟨0, 0, 20, 77, 90, 200, 40, 5, 0⟩ 0 100).2 h).2⟩

/-- If all four gate conditions hold, the peak/HR stage performs the full
accepted update. -/
lemma peakHrStep_accept (s : DSPState)
    (hcross : s.prev_ir_filt < peak_thr ∧ peak_thr ≤ s.ir_filt)
    (hrefr : refractory_n < s.sample_idx - s.last_peak)
    (hsent : 0 ≤ s.last_peak)
    (hplaus : min_hr_bpm < instHr (s.sample_idx - s.last_peak) ∧
      instHr (s.sample_idx - s.last_peak) < max_hr_bpm) :
    peakHrStep s =
      ({ s with prev_peak := s.last_peak, last_peak := s.sample_idx,
                hr_bpm := instHr (s.sample_idx - s.last_peak),
                hr_bpm_filt := s.hr_bpm_filt +
                  alpha_hr * (instHr (s.sample_idx - s.last_peak) - s.hr_bpm_filt) },
       true) := by
  unfold peakHrStep
  rw [if_pos hcross, if_pos hrefr, if_pos hsent, if_pos hplaus]

/-- C6 (Scenario D): when the second accepted peak lands at sample index 60
after a first peak at index 10 (crossing conditions supplied, refractory
gate 50 > 30 passed), the estimator computes `period_seconds = 0.5` and
`instantaneous_bpm = 120`, which passes the open plausibility range
(40, 200), and the smoothed BPM moves 30% of the way from its previous
value toward 120. -/
theorem c6_two_peaks_scenario (s : DSPState) (red ir : ℚ)
    (hlast : s.last_peak = 10) (hidx : s.sample_idx = 60)
    (hprev : s.prev_ir_filt < peak_thr) (hcross : peak_thr ≤ filterStep s.ir_filt ir) :
    periodSec (60 - 10) = 1/2 ∧
    instHr (60 - 10) = 120 ∧
    (min_hr_bpm < instHr (60 - 10) ∧ instHr (60 - 10) < max_hr_bpm) ∧
    (processSample s red ir).1.prev_peak = 10 ∧
    (processSample s red ir).1.last_peak = 60 ∧
    (processSample s red ir).1.hr_bpm = 120 ∧
    (processSample s red ir).1.hr_bpm_filt =
      s.hr_bpm_filt + (3/10) * (120 - s.hr_bpm_filt) := by
  have hper : periodSec (60 - 10) = 1/2 := by norm_num [periodSec, FS]
  have hnum : instHr (60 - 10) = 120 := by norm_num [instHr, periodSec, FS]
  have hplaus120 : min_hr_bpm < instHr (60 - 10) ∧ instHr (60 - 10) < max_hr_bpm := by
    rw [hnum]
    norm_num [min_hr_bpm, max_hr_bpm]
  have hdelta : s.sample_idx - s.last_peak = 60 - 10 := by rw [hidx, hlast]
  have hrefr : refractory_n < s.sample_idx - s.last_peak := by
    rw [hdelta, refractory_n_eq]; decide
  have hsent : 0 ≤ s.last_peak := by rw [hlast]; decide
  have hplaus : min_hr_bpm < instHr (s.sample_idx - s.last_peak) ∧
      instHr (s.sample_idx - s.last_peak) < max_hr_bpm := by
    rw [hdelta]; exact hplaus120
  have hstep := peakHrStep_accept (filteredState s red ir) ⟨hprev, hcross⟩ hrefr hsent hplaus
  refine ⟨hper, hnum, hplaus120, ?_, ?_, ?_, ?_⟩
  · show (peakHrStep (filteredState s red ir)).1.prev_peak = 10
    rw [hstep]
    exact hlast
  · show (peakHrStep (filteredState s red ir)).1.last_peak = 60
    rw [hstep]
    exact hidx
  · show (peakHrStep (filteredState s red ir)).1.hr_bpm = 120
    rw [hstep]
    show instHr (s.sample_idx - s.last_peak) = 120
    rw [hdelta]
    exact hnum
  · show (peakHrStep (filteredState s red ir)).1.hr_bpm_filt =
      s.hr_bpm_filt + (3/10) * (120 - s.hr_bpm_filt)
    rw [hstep]
    show s.hr_bpm_filt + alpha_hr * (instHr (s.sample_idx - s.last_peak) - s.hr_bpm_filt) =
      s.hr_bpm_filt + (3/10) * (120 - s.hr_bpm_filt)
    rw [hdelta, hnum]
    rfl

/-- Witness for C6: peaks at indices 10 and 60, previous smoothed BPM 100,
raw IR 100 so the filtered value 20 crosses the threshold; the smoothed BPM
becomes 100 + 0.3·(120 − 100) = 106. -/
theorem c6_witness :
    (processSample ⟨0, 0, 0, 50, 100, 60, 10, -1000, 0⟩ 0 100).1.hr_bpm = 120 ∧
    (processSample ⟨0, 0, 0, 50, 100, 60, 10, -1000, 0⟩ 0 100).1.hr_bpm_filt =
      100 + (3/10) * (120 - 100) := by
  have hprev : (⟨0, 0, 0, 50, 100, 60, 10, -1000, 0⟩ : DSPState).prev_ir_filt < peak_thr := by
    norm_num [peak_thr]
  have hcross : peak_thr ≤
      filterStep (⟨0, 0, 0, 50, 100, 60, 10, -1000, 0⟩ : DSPState).ir_filt 100 := by
    norm_num [filterStep, alpha_filt, peak_thr]
  have h := c6_two_peaks_scenario ⟨0, 0, 0, 50, 100, 60, 10, -1000, 0⟩ 0 100 rfl rfl hprev hcross
  exact ⟨h.2.2.2.2.2.1, h.2.2.2.2.2.2⟩

/-- C10: whenever the HR computation runs (the refractory gate passed and
`prev_peak` would be non-sentinel), the peak interval is at least 31
samples, so `periodSec` is strictly positive (no division by zero),
`instHr` equals `6000 / delta` and is at most `6000/31 < 200`; hence
failing the upper plausibility bound can never be the reason a value is
rejected — the plausibility conjunction reduces to its lower-bound half. -/
theorem c10_no_upper_rejection (s : DSPState)
    (hsent : 0 ≤ s.last_peak)
    (hrefr : refractory_n < s.sample_idx - s.last_peak) :
    31 ≤ s.sample_idx - s.last_peak ∧
    0 < periodSec (s.sample_idx - s.last_peak) ∧
    instHr (s.sample_idx - s.last_peak) = 6000 / ((s.sample_idx - s.last_peak : ℤ) : ℚ) ∧
    instHr (s.sample_idx - s.last_peak) ≤ 6000 / 31 ∧
    instHr (s.sample_idx - s.last_peak) < max_hr_bpm ∧
    ((min_hr_bpm < instHr (s.sample_idx - s.last_peak) ∧
        instHr (s.sample_idx - s.last_peak) < max_hr_bpm) ↔
      min_hr_bpm < instHr (s.sample_idx - s.last_peak)) := by
  rw [refractory_n_eq] at hrefr
  have h31 : 31 ≤ s.sample_idx - s.last_peak := by omega
  have hcast : (31 : ℚ) ≤ ((s.sample_idx - s.last_peak : ℤ) : ℚ) := by exact_mod_cast h31
  have hpos : (0 : ℚ) < ((s.sample_idx - s.last_peak : ℤ) : ℚ) := by linarith
  have heq : instHr (s.sample_idx - s.last_peak) =
      6000 / ((s.sample_idx - s.last_peak : ℤ) : ℚ) := by
    show (60 : ℚ) / (((s.sample_idx - s.last_peak : ℤ) : ℚ) / FS) =
      6000 / ((s.sample_idx - s.last_peak : ℤ) : ℚ)
    rw [div_div_eq_mul_div]
    norm_num [FS]
  have hper : 0 < periodSec (s.sample_idx - s.last_peak) := by
    show (0 : ℚ) < ((s.sample_idx - s.last_peak : ℤ) : ℚ) / FS
    apply div_pos hpos
    norm_num [FS]
  have hle : instHr (s.sample_idx - s.last_peak) ≤ 6000 / 31 := by
    rw [heq]
    exact div_le_div_of_nonneg_left (by norm_num) (by norm_num) hcast
  have hlt : instHr (s.sample_idx - s.last_peak) < max_hr_bpm := by
    have : (6000 : ℚ) / 31 < max_hr_bpm := by norm_num [max_hr_bpm]
    linarith
  exact ⟨h31, hper, heq, hle, hlt, ⟨fun h => h.1, fun h => ⟨h, hlt⟩⟩⟩

/-- Witness for C10: `last_peak = 10`, `sample_idx = 60` (gap 50 > 30). -/
theorem c10_witness :
    ((0 : ℤ) ≤ 10 ∧ refractory_n < (60 : ℤ) - 10) ∧
    instHr ((60 : ℤ) - 10) ≤ 6000 / 31 ∧ instHr ((60 : ℤ) - 10) < max_hr_bpm := by
  have h1 : (0 : ℤ) ≤ 10 := by decide
  have h2 : refractory_n < (60 : ℤ) - 10 := by rw [refractory_n_eq]; decide
  have h := c10_no_upper_rejection ⟨0, 0, 0, 0, 0, 60, 10, -1000, 0⟩ h1 h2
  exact ⟨⟨h1, h2⟩, h.2.2.2.1, h.2.2.2.2.1⟩

/-! ## Low-pass filter convergence (C7) -/

/-- One filter step scales the distance to the raw value by 4/5. -/
lemma filtIter_err (f0 x : ℚ) (n : ℕ) :
    x - filtIter f0 x (n + 1) = (4/5) * (x - filtIter f0 x n) := by
  show x - filterStep (filtIter f0 x n) x = (4/5) * (x - filtIter f0 x n)
  rw [filterStep, alpha_filt]
  ring

/-- Closed form of the distance to the raw value. -/
lemma filtIter_err_pow (f0 x : ℚ) : ∀ n : ℕ,
    x - filtIter f0 x n = (4/5) ^ n * (x - f0)
  | 0 => by simp [filtIter]
  | n + 1 => by rw [filtIter_err, filtIter_err_pow f0 x n, pow_succ]; ring

/-- C7: the filter computes
`ir_filtered = ir_filtered_prev + alpha * (ir_raw - ir_filtered_prev)` with
`alpha = 0.2`; holding the raw input constant, the filtered value approaches
it with nonincreasing distance, moving monotonically (upward from below,
downward from above) without ever overshooting, and converges: the distance
eventually drops below any positive bound. -/
theorem c7_filter_convergence :
    alpha_filt = 1/5 ∧
    (∀ (s : DSPState) (red ir : ℚ),
      (processSample s red ir).1.ir_filt = s.ir_filt + alpha_filt * (ir - s.ir_filt)) ∧
    (∀ f0 x : ℚ,
      (∀ n, |x - filtIter f0 x (n + 1)| ≤ |x - filtIter f0 x n|) ∧
      (f0 ≤ x → (∀ n, filtIter f0 x n ≤ filtIter f0 x (n + 1)) ∧
        (∀ n, filtIter f0 x n ≤ x)) ∧
      (x ≤ f0 → (∀ n, filtIter f0 x (n + 1) ≤ filtIter f0 x n) ∧
        (∀ n, x ≤ filtIter f0 x n)) ∧
      (∀ ε : ℚ, 0 < ε → ∃ N, ∀ n, N ≤ n → |x - filtIter f0 x n| < ε)) := by
  refine ⟨rfl, fun s red ir => processSample_ir_filt s red ir, fun f0 x => ?_⟩
  have hbelow : f0 ≤ x → ∀ n, filtIter f0 x n ≤ x := by
    intro h0 n
    have he := filtIter_err_pow f0 x n
    have hp : (0:ℚ) ≤ (4/5) ^ n := pow_nonneg (by norm_num) n
    nlinarith
  have habove : x ≤ f0 → ∀ n, x ≤ filtIter f0 x n := by
    intro h0 n
    have he := filtIter_err_pow f0 x n
    have hp : (0:ℚ) ≤ (4/5) ^ n := pow_nonneg (by norm_num) n
    nlinarith
  refine ⟨?_, fun h0 => ⟨?_, hbelow h0⟩, fun h0 => ⟨?_, habove h0⟩, ?_⟩
  · intro n
    rw [filtIter_err, abs_mul, abs_of_nonneg (by norm_num : (0:ℚ) ≤ 4/5)]
    have := abs_nonneg (x - filtIter f0 x n)
    nlinarith
  · intro n
    have hfn := hbelow h0 n
    show filtIter f0 x n ≤ filterStep (filtIter f0 x n) x
    rw [filterStep, alpha_filt]
    linarith
  · intro n
    have hfn := habove h0 n
    show filterStep (filtIter f0 x n) x ≤ filtIter f0 x n
    rw [filterStep, alpha_filt]
    linarith
  · intro ε hε
    by_cases hx : x - f0 = 0
    · refine ⟨0, fun n _ => ?_⟩
      rw [filtIter_err_pow, hx, mul_zero, abs_zero]
      exact hε
    · have habs : 0 < |x - f0| := abs_pos.mpr hx
      obtain ⟨N, hN⟩ := exists_pow_lt_of_lt_one (div_pos hε habs) (by norm_num : (4:ℚ)/5 < 1)
      refine ⟨N, fun n hn => ?_⟩
      have hpow : ((4:ℚ)/5) ^ n ≤ (4/5) ^ N :=
        pow_le_pow_of_le_one (by norm_num) (by norm_num) hn
      have hnn : (0:ℚ) ≤ (4/5) ^ n := pow_nonneg (by norm_num) n
      calc |x - filtIter f0 x n| = (4/5) ^ n * |x - f0| := by
            rw [filtIter_err_pow, abs_mul, abs_of_nonneg hnn]
        _ ≤ (4/5) ^ N * |x - f0| := mul_le_mul_of_nonneg_right hpow (abs_nonneg _)
        _ < ε / |x - f0| * |x - f0| := mul_lt_mul_of_pos_right hN habs
        _ = ε := div_mul_cancel₀ ε (ne_of_gt habs)

/-- Witness for C7: constant raw input 50 from initial value 0 — never above
50, and eventually within distance 1 of 50. -/
theorem c7_witness :
    ((0:ℚ) ≤ 50 ∧ filtIter 0 50 1 ≤ 50) ∧
    ((0:ℚ) < 1 ∧ ∃ N, ∀ n, N ≤ n → |50 - filtIter 0 50 n| < 1) := by
  have h := c7_filter_convergence.2.2 0 50
  exact ⟨⟨by norm_num, (h.2.1 (by norm_num)).2 1⟩,
         ⟨by norm_num, h.2.2.2 1 (by norm_num)⟩⟩

/-! ## Malformed-record handling (C1 / C9) -/

/-- When fewer than two `%d` conversions succeed, `ir_int` keeps its
pre-initialised value 0. -/
lemma sscanf2_ir_zero (l : List ℕ) (h : (sscanf2 l).1 < 2) : (sscanf2 l).2.2 = 0 := by
  unfold sscanf2 at h ⊢
  cases hm : scanInt l with
  | none => simp
  | some p =>
    obtain ⟨r, rest⟩ := p
    rcases rest with - | ⟨b, rest2⟩
    · simp
    · by_cases hb : b = 44
      · subst hb
        cases hs : scanInt rest2 with
        | none => simp [hs]
        | some q =>
          obtain ⟨i, rest3⟩ := q
          simp [hm, hs] at h
      · simp [hb]

/-- When no conversion succeeds, `red_int` also keeps its pre-initialised
value 0. -/
lemma sscanf2_red_zero (l : List ℕ) (h : (sscanf2 l).1 = 0) : (sscanf2 l).2.1 = 0 := by
  unfold sscanf2 at h ⊢
  cases hm : scanInt l with
  | none => simp
  | some p =>
    obtain ⟨r, rest⟩ := p
    exfalso
    rcases rest with - | ⟨b, rest2⟩
    · simp [hm] at h
    · by_cases hb : b = 44
      · subst hb
        cases hs : scanInt rest2 with
        | none => simp [hm, hs] at h
        | some q =>
          obtain ⟨i, rest3⟩ := q
          simp [hm, hs] at h
      · simp [hm, hb] at h

/-- `processRecord` is `processSample` on the `sscanf` results. -/
lemma processRecord_eq (s : DSPState) (rec : List ℕ) :
    processRecord s rec =
      ((processSample s ((sscanf2 (cstr rec)).2.1 : ℚ) ((sscanf2 (cstr rec)).2.2 : ℚ)).1,
       (processSample s ((sscanf2 (cstr rec)).2.1 : ℚ) ((sscanf2 (cstr rec)).2.2 : ℚ)).2.1) :=
  rfl

/-- C1 (amended): a completed record from which fewer than two integers can
be extracted is not skipped — since the `sscanf` return value is ignored,
the record is processed as a full sample with the unparsed IR value
defaulting to 0: the state update is exactly `processSample` at the
defaulted values, the sample index advances by one, and the filtered value
of IR 0 is written to the sink. -/
theorem c1_malformed_processed (s : DSPState) (rec : List ℕ)
    (h : (sscanf2 (cstr rec)).1 < 2) :
    (sscanf2 (cstr rec)).2.2 = 0 ∧
    processRecord s rec =
      ((processSample s ((sscanf2 (cstr rec)).2.1 : ℚ) 0).1,
       (processSample s ((sscanf2 (cstr rec)).2.1 : ℚ) 0).2.1) ∧
    (processRecord s rec).1.sample_idx = s.sample_idx + 1 ∧
    (processRecord s rec).2 = filterStep s.ir_filt 0 := by
  have hz := sscanf2_ir_zero (cstr rec) h
  refine ⟨hz, ?_, ?_, ?_⟩
  · rw [processRecord_eq, hz]
    norm_num
  · rw [processRecord_eq]
    exact processSample_sample_idx s _ _
  · rw [processRecord_eq]
    show (processSample s ((sscanf2 (cstr rec)).2.1 : ℚ) ((sscanf2 (cstr rec)).2.2 : ℚ)).2.1 =
      filterStep s.ir_filt 0
    rw [processSample_out, hz]
    norm_num

/-- Witness for C1 (amended): the record `"abc,def"`. -/
theorem c1_witness :
    (sscanf2 (cstr [97, 98, 99, 44, 100, 101, 102])).1 < 2 ∧
    (processRecord initDSP [97, 98, 99, 44, 100, 101, 102]).1.sample_idx =
      initDSP.sample_idx + 1 ∧
    (processRecord initDSP [97, 98, 99, 44, 100, 101, 102]).2 =
      filterStep initDSP.ir_filt 0 := by
  have h : (sscanf2 (cstr [97, 98, 99, 44, 100, 101, 102])).1 < 2 := by decide
  exact ⟨h, (c1_malformed_processed initDSP _ h).2.2.1,
            (c1_malformed_processed initDSP _ h).2.2.2⟩

/-- C9: with fewer than two successful conversions the unextracted values
default to 0 (`red` too when nothing parses), yet the record counts as a
full sample: the filter and the detector's `prev_ir_filt` update on the
defaulted IR value 0, that filtered value is written to the sink, and the
sample index advances by one. -/
theorem c9_defaults_processed (s : DSPState) (rec : List ℕ)
    (h : (sscanf2 (cstr rec)).1 < 2) :
    ((sscanf2 (cstr rec)).1 = 0 → (sscanf2 (cstr rec)).2.1 = 0) ∧
    (sscanf2 (cstr rec)).2.2 = 0 ∧
    (processRecord s rec).1.ir_filt = filterStep s.ir_filt 0 ∧
    (processRecord s rec).1.prev_ir_filt = filterStep s.ir_filt 0 ∧
    (processRecord s rec).2 = filterStep s.ir_filt 0 ∧
    (processRecord s rec).1.sample_idx = s.sample_idx + 1 := by
  have hz := sscanf2_ir_zero (cstr rec) h
  refine ⟨fun h0 => sscanf2_red_zero (cstr rec) h0, hz, ?_, ?_, ?_, ?_⟩
  · rw [processRecord_eq]
    show (processSample s ((sscanf2 (cstr rec)).2.1 : ℚ) ((sscanf2 (cstr rec)).2.2 : ℚ)).1.ir_filt =
      filterStep s.ir_filt 0
    rw [processSample_ir_filt, hz]
    norm_num
  · rw [processRecord_eq]
    show (processSample s ((sscanf2 (cstr rec)).2.1 : ℚ)
        ((sscanf2 (cstr rec)).2.2 : ℚ)).1.prev_ir_filt = filterStep s.ir_filt 0
    rw [processSample_prev_ir_filt, hz]
    norm_num
  · rw [processRecord_eq]
    show (processSample s ((sscanf2 (cstr rec)).2.1 : ℚ) ((sscanf2 (cstr rec)).2.2 : ℚ)).2.1 =
      filterStep s.ir_filt 0
    rw [processSample_out, hz]
    norm_num
  · rw [processRecord_eq]
    exact processSample_sample_idx s _ _

/-- Witness for C9: the record `"12,def"`, where only `red` parses (to 12)
and `ir` defaults to 0. -/
theorem c9_witness :
    (sscanf2 (cstr [49, 50, 44, 100, 101, 102])).1 < 2 ∧
    (sscanf2 (cstr [49, 50, 44, 100, 101, 102])).2.2 = 0 ∧
    (processRecord initDSP [49, 50, 44, 100, 101, 102]).1.sample_idx = 1 := by
  have h : (sscanf2 (cstr [49, 50, 44, 100, 101, 102])).1 < 2 := by decide
  exact ⟨h, (c9_defaults_processed initDSP _ h).2.1,
            (c9_defaults_processed initDSP _ h).2.2.2.2.2⟩

/-- Counterexample to C1 as stated: feeding the malformed record
`"abc,def\n"` to the pipeline in its initial state produces a sink write
and advances the sample index, so the record is not skipped. -/
theorem c1_counterexample :
    ¬ ((driveChunk initPipe [97, 98, 99, 44, 100, 101, 102, 10]).2 = [] ∧
       (driveChunk initPipe [97, 98, 99, 44, 100, 101, 102, 10]).1.dsp.sample_idx = 0) := by
  intro h
  exact absurd h.2 (by decide)

/-! ## Byte-source error shutdown (C8) -/

/-- C8 (amended): a negative/error signal from the byte source terminates
the processing loop — the remaining polls are not processed and nothing
more reaches the sink; during shutdown `CloseHandle` on the serial port is
always invoked, `fclose` on the CSV file is invoked exactly when
`CloseHandle` reported failure (returned 0), and `main` returns status 0. -/
theorem c8_error_shutdown (p : PipeState) (rest : List Poll) (closeRet : ℤ) :
    runPolls p (Poll.srcErr :: rest) = (p, [], true) ∧
    (shutdownCalls closeRet).1 = true ∧
    ((shutdownCalls closeRet).2 = true ↔ closeRet = 0) ∧
    exitCodeAfterSourceError = 0 := by
  refine ⟨rfl, rfl, ?_, rfl⟩
  simp [shutdownCalls]

/-- Counterexample to C8 as stated: when `CloseHandle` succeeds (returns a
nonzero value, here 1), the claim's conjunction — non-zero exit status and
both resources released — fails: the exit status is 0 and the CSV file is
never closed. -/
theorem c8_counterexample :
    ¬ (exitCodeAfterSourceError ≠ 0 ∧
       (shutdownCalls 1).1 = true ∧ (shutdownCalls 1).2 = true) := by
  intro h
  exact h.1 rfl

end BioConnect
